import Mathlib

/-!
Verification development for the go-clamd ClamAV client.

The Go sources are shallowly embedded: strings are modelled as `String` /
`List Char` (Go regexp operates on runes, so char-level is the faithful
level for the response grammar), bytes on the wire as `Nat` values below
256, machine integers as `Nat` with explicit bounds where overflow
matters, and the network connection as an explicit state record carrying
a fault schedule and a log of completed writes.
-/

namespace Clamd

/-! ## Response parser (conn.go, `resultRegex` / `parseResult`)

The Go regular expression is

  `^(?P<path>[^:]+): ((?P<desc>[^:]+)(\((?P<virhash>([^:]+)):(?P<virsize>\d+)\))? )?(?P<status>FOUND|ERROR|OK)$`

compiled by `regexp.MustCompile` and applied with `FindStringSubmatch`.
It is anchored on both sides, so a match decomposes the whole line.  Go
submatch semantics are leftmost-first (the match a backtracking engine
would find first), which for this expression is deterministic except for
the length of the greedy `desc` group; the embedding below mirrors the
backtracking order exactly: `path` is forced to the maximal colon-free
prefix, then candidate `desc` lengths are tried longest first, for each
one the optional signature group is tried before its absence, and the
status alternation is a plain token test since the three tokens are
mutually exclusive at a fixed position before the end anchor. -/

/-- Test for the status alternation `FOUND|ERROR|OK` of `resultRegex`,
followed immediately by the end anchor, so the remainder must equal one
of the three tokens. -/
def isStatusTok (l : List Char) : Bool :=
  decide (l = "FOUND".data) || decide (l = "ERROR".data) || decide (l = "OK".data)

/-- Match of the optional signature group `(\((?P<virhash>([^:]+)):(?P<virsize>\d+)\))?`
of `resultRegex` at the front of `after`: a literal opening parenthesis,
a non-empty colon-free hash (maximal, since the following literal is a
colon which the class excludes), a colon, a non-empty digit run
(maximal, since the following literal is a closing parenthesis which is
not a digit), and the closing parenthesis.  Returns the hash, the digit
run and the remainder of the input. -/
def parseSig : List Char → Option (List Char × List Char × List Char)
  | '(' :: t =>
    let h := t.takeWhile (fun c => decide (c ≠ ':'))
    if h = [] then none
    else
      match t.drop h.length with
      | ':' :: t2 =>
        let s := t2.takeWhile Char.isDigit
        if s = [] then none
        else
          match t2.drop s.length with
          | ')' :: r => some (h, s, r)
          | _ => none
      | _ => none
  | _ => none

/-- Match of `(\(virhash:virsize\))? (FOUND|ERROR|OK)$` against the input
that follows a candidate `desc` group.  When the signature group matches
but the tail does not, no other decomposition can succeed (the
signature-absent branch would need a space where the opening parenthesis
stands), so the whole attempt fails, exactly as in the backtracking
order of the Go engine. -/
def matchTail (after : List Char) : Option (Option (List Char × List Char) × List Char) :=
  match parseSig after with
  | some (h, s, r) =>
    match r with
    | ' ' :: st => if isStatusTok st then some (some (h, s), st) else none
    | _ => none
  | none =>
    match after with
    | ' ' :: st => if isStatusTok st then some (none, st) else none
    | _ => none

/-- Backtracking loop over the length of the greedy `desc` group
`[^:]+`: candidate lengths are tried longest first, mirroring the Go
engine; `0` means every non-empty candidate has been exhausted. -/
def descLoop (rest : List Char) : Nat → Option (List Char × Option (List Char × List Char) × List Char)
  | 0 => none
  | k + 1 =>
    match matchTail (rest.drop (k + 1)) with
    | some (sig, st) => some (rest.take (k + 1), sig, st)
    | none => descLoop rest k

/-- Submatches of a successful `resultRegex` match: the `path` group, the
optional `desc` group, the optional signature group (`virhash` and
`virsize` submatches), and the `status` group. -/
structure RegexMatch where
  path : List Char
  desc : Option (List Char)
  sig : Option (List Char × List Char)
  status : List Char
deriving Repr, DecidableEq

/-- Match of `((?P<desc>[^:]+)(\(..\))? )?(?P<status>FOUND|ERROR|OK)$`
against the text after `path: `.  The group-present alternative is tried
first (the `?` is greedy), with `desc` bounded by the maximal colon-free
prefix; if every candidate fails the whole group is dropped and the
remainder must be exactly a status token. -/
def matchRest (rest : List Char) :
    Option (Option (List Char) × Option (List Char × List Char) × List Char) :=
  match descLoop rest (rest.takeWhile (fun c => decide (c ≠ ':'))).length with
  | some (d, sig, st) => some (some d, sig, st)
  | none => if isStatusTok rest then some (none, none, rest) else none

/-- Anchored match of `resultRegex` against a whole line.  The `path`
group `[^:]+` cannot contain a colon and is followed by a literal colon,
so it is forced to the maximal colon-free prefix, which must be
non-empty and be followed by the literal `: `. -/
def matchLine (line : List Char) : Option RegexMatch :=
  let p := line.takeWhile (fun c => decide (c ≠ ':'))
  if p = [] then none
  else
    match line.drop p.length with
    | ':' :: ' ' :: rest =>
      match matchRest rest with
      | some (d, sig, st) => some ⟨p, d, sig, st⟩
      | none => none
    | _ => none

/-- Status constant `RES_OK` of the Go source. -/
def RES_OK : String := "OK"

/-- Status constant `RES_FOUND` of the Go source. -/
def RES_FOUND : String := "FOUND"

/-- Status constant `RES_ERROR` of the Go source. -/
def RES_ERROR : String := "ERROR"

/-- Status constant `RES_PARSE_ERROR` of the Go source. -/
def RES_PARSE_ERROR : String := "PARSE ERROR"

/-- The `ScanResult` struct of the Go source.  `Size` is a Go `int`
(64-bit signed); the only value ever stored comes from `strconv.Atoi`
of a digit run, hence is non-negative, so `Nat` carries it faithfully. -/
structure ScanResult where
  Raw : String := ""
  Description : String := ""
  Path : String := ""
  Hash : String := ""
  Size : Nat := 0
  Status : String := ""
deriving Repr, DecidableEq

/-- Numeric value of a digit run, most significant digit first. -/
def digitsVal (l : List Char) : Nat :=
  l.foldl (fun a c => a * 10 + (c.toNat - 48)) 0

/-- Model of `strconv.Atoi` restricted to the inputs `parseResult` feeds
it (the `virsize` submatch: either empty, when the group did not
participate, or a digit run).  Go's `Atoi` returns an error on the empty
string and on values exceeding `MaxInt64`; `parseResult` keeps `Size`
at zero in that case. -/
def goAtoi (l : List Char) : Option Nat :=
  if l.isEmpty then none
  else if l.all Char.isDigit && decide (digitsVal l ≤ 2 ^ 63 - 1) then some (digitsVal l)
  else none

/-- The `parseResult` function of conn.go.  On a failed match it returns
the fixed diagnostic record; on a match it fills each named submatch
(absent groups contribute the empty string, and a failed `Atoi` of the
`virsize` text leaves `Size` at zero), with the defensive check on the
status token mirrored from the source (it can never fire, since the
grammar only produces the three listed tokens).  The function is total
by construction. -/
def parseResult (line : String) : ScanResult :=
  match matchLine line.data with
  | none =>
    { Raw := line, Description := "Regex had no matches", Status := RES_PARSE_ERROR }
  | some m =>
    let base : ScanResult :=
      { Raw := line
        Path := String.mk m.path
        Description := match m.desc with | some d => String.mk d | none => ""
        Hash := match m.sig with | some hs => String.mk hs.1 | none => ""
        Size := match m.sig with
                | some hs => match goAtoi hs.2 with | some v => v | none => 0
                | none => 0 }
    if isStatusTok m.status then { base with Status := String.mk m.status }
    else { base with Description := "Invalid status field: " ++ String.mk m.status,
                     Status := RES_PARSE_ERROR }

example : parseResult "/tmp/file: OK" =
    { Raw := "/tmp/file: OK", Path := "/tmp/file", Status := "OK" } := by decide

example : parseResult "/tmp/file: Eicar-Test-Signature(abcd1234:68) FOUND" =
    { Raw := "/tmp/file: Eicar-Test-Signature(abcd1234:68) FOUND",
      Description := "Eicar-Test-Signature", Path := "/tmp/file",
      Hash := "abcd1234", Size := 68, Status := "FOUND" } := by decide

example : parseResult "x: FOUND" =
    { Raw := "x: FOUND", Path := "x", Status := "FOUND" } := by decide

example : parseResult "f: d(h:1) OK" =
    { Raw := "f: d(h:1) OK", Description := "d", Path := "f",
      Hash := "h", Size := 1, Status := "OK" } := by decide

example : parseResult "no match here" =
    { Raw := "no match here", Description := "Regex had no matches",
      Status := "PARSE ERROR" } := by decide

/-! ## Connection and stream upload (conn.go / ScanStream)

A connection is modelled as a fault schedule for successive `Write`
calls together with a log of the writes that completed.  Each call to
`Write` consumes one schedule entry (an exhausted schedule means
success); a failed write logs nothing and reports an error, modelled as
`some ()` in the position of Go's non-nil `err`. -/

/-- State of a modelled `net.Conn`: `pending` is the outcome schedule of
the next `Write` calls (`true` = success; an empty schedule means every
further write succeeds) and `written` is the log of completed writes,
each a byte list. -/
structure Conn where
  pending : List Bool := []
  written : List (List Nat) := []
deriving Repr, DecidableEq

/-- One `Write` call on the modelled connection: consumes the head of
the fault schedule, appends the bytes to the log on success, and
reports the error outcome. -/
def Conn.write (c : Conn) (data : List Nat) : Conn × Option Unit :=
  match c.pending with
  | [] => ({ pending := [], written := c.written ++ [data] }, none)
  | b :: rest =>
    if b then ({ pending := rest, written := c.written ++ [data] }, none)
    else ({ pending := rest, written := c.written }, some ())

/-- Byte image of the framed command `fmt.Sprintf("n%s\n", command)`
written by `sendCommand`. -/
def cmdBytes (command : String) : List Nat :=
  (("n" ++ command ++ "\n").data).map Char.toNat

/-- The `sendCommand` method of conn.go: one write of the framed
command, whose error is returned. -/
def Conn.sendCommand (c : Conn) (command : String) : Conn × Option Unit :=
  c.write (cmdBytes command)

/-- The `sendEOF` method of conn.go: one write of four zero bytes,
whose error is returned. -/
def Conn.sendEOF (c : Conn) : Conn × Option Unit :=
  c.write [0, 0, 0, 0]

/-- The 4-byte length header built by `sendChunk`: `byte(len>>24)`,
`byte(len>>16)`, `byte(len>>8)`, `byte(len>>0)`, where the Go `byte`
conversion truncates modulo 256. -/
def lenHeader (n : Nat) : List Nat :=
  [n >>> 24 % 256, n >>> 16 % 256, n >>> 8 % 256, n >>> 0 % 256]

/-- Big-endian decoding of a 4-byte header, the inverse direction of the
framing round-trip. -/
def decodeHeader (bs : List Nat) : Nat :=
  match bs with
  | [b0, b1, b2, b3] => b0 * 2 ^ 24 + b1 * 2 ^ 16 + b2 * 2 ^ 8 + b3
  | _ => 0

/-- The `sendChunk` method of conn.go: writes the 4-byte length header
(the source discards this call's error: `conn.Write(b)` with no
assignment), then writes the data and returns only the second write's
error. -/
def Conn.sendChunk (c : Conn) (data : List Nat) : Conn × Option Unit :=
  let r1 := c.write (lenHeader data.length)
  r1.1.write data

/-- The `CHUNK_SIZE` constant of conn.go. -/
def CHUNK_SIZE : Nat := 1024

/-- Relay loop of `ScanStream` over a `bytes.Reader`-style source: each
iteration reads up to `CHUNK_SIZE` bytes into a fresh buffer; a
non-empty read sends one chunk (the chunk's error is discarded — the
`err` tested by the loop is the read error) and an exhausted source
returns `(0, io.EOF)`, which breaks the loop without sending a chunk.
`fuel` bounds the iterations; since every iteration consumes at least
one source byte, `fuel = src.length` always suffices. -/
def scanStreamLoopAux : Nat → Conn → List Nat → Conn
  | 0, c, _ => c
  | _, c, [] => c
  | fuel + 1, c, a :: t =>
    scanStreamLoopAux fuel ((c.sendChunk ((a :: t).take CHUNK_SIZE)).1) ((a :: t).drop CHUNK_SIZE)

/-- Relay loop of `ScanStream`, at its natural fuel. -/
def scanStreamLoop (c : Conn) (src : List Nat) : Conn :=
  scanStreamLoopAux src.length c src

/-- Write phase of the `ScanStream` method: the framed `INSTREAM`
command (error discarded by the source), the relay loop, then the
end-of-stream marker whose error is the one `ScanStream` checks and
returns. -/
def Conn.scanStreamWrites (c : Conn) (src : List Nat) : Conn × Option Unit :=
  let c1 := (c.sendCommand "INSTREAM").1
  let c2 := scanStreamLoop c1 src
  c2.sendEOF

/-- Decomposition of a source into the successive `CHUNK_SIZE`-byte
reads of the relay loop, with the same fuel discipline as the loop. -/
def chunksAux : Nat → List Nat → List (List Nat)
  | 0, _ => []
  | _, [] => []
  | fuel + 1, a :: t => (a :: t).take CHUNK_SIZE :: chunksAux fuel ((a :: t).drop CHUNK_SIZE)

/-- Decomposition of a source into the successive chunks sent by the
relay loop. -/
def chunks1024 (src : List Nat) : List (List Nat) :=
  chunksAux src.length src

/-- Outcome of the next write under a fault schedule: an exhausted
schedule or a `true` head means success. -/
def nextOutcome (sched : List Bool) : Option Unit :=
  match sched with
  | [] => none
  | b :: _ => if b then none else some ()

example : (Conn.sendChunk ⟨[false], []⟩ [1, 2, 3]).2 = none := by decide

example : (Conn.scanStreamWrites ⟨[], []⟩ [5, 6]).1.written =
    [cmdBytes "INSTREAM", lenHeader 2, [5, 6], [0, 0, 0, 0]] := by decide

/-! ## Command façade: Ping, Reload, Stats

`simpleCommand` hands the caller the result channel of `readResponse`;
the records the daemon's lines produced are modelled as the list of
`ScanResult` values the channel would deliver before closing.  A
receive `s := <-ch` on the closed, empty channel yields the zero value
`nil` of the pointer type, and the subsequent `s.Raw` dereferences a
nil pointer, a runtime panic rather than a returned error. -/

/-- Outcome of a façade call that receives one record: normal return,
a call-level error (Go `errors.New(...)`), or a runtime panic from
dereferencing the nil record received on a closed channel. -/
inductive CallOutcome where
  | ok
  | callFailed (raw : String)
  | nilDeref
deriving Repr, DecidableEq

/-- Single channel receive of `Ping` and `Reload`: `head?` of the list
of delivered records, `none` once the channel is closed without a
value, modelling the `nil` zero value. -/
def recvOne (resps : List ScanResult) : Option ScanResult :=
  resps.head?

/-- The receive-and-check part of the `Ping` method: the `select`
receives one record; on `nil` the access `s.Raw` faults; otherwise the
raw text is compared against the literal `PONG`. -/
def pingAfterSend (resps : List ScanResult) : CallOutcome :=
  match recvOne resps with
  | none => CallOutcome.nilDeref
  | some s => if s.Raw = "PONG" then CallOutcome.ok else CallOutcome.callFailed s.Raw

/-- The receive-and-check part of the `Reload` method, comparing against
the literal `RELOADING`. -/
def reloadAfterSend (resps : List ScanResult) : CallOutcome :=
  match recvOne resps with
  | none => CallOutcome.nilDeref
  | some s => if s.Raw = "RELOADING" then CallOutcome.ok else CallOutcome.callFailed s.Raw

/-- The `Stats` struct of the Go source. -/
structure Stats where
  Pools : String := ""
  State : String := ""
  Threads : String := ""
  Memstats : String := ""
  Queue : String := ""
deriving Repr, DecidableEq

/-- Test whether `p` is a prefix of `s`, modelling `strings.HasPrefix`
on the rune level (for the ASCII keywords involved, byte-level and
rune-level agreement is exact by the UTF-8 self-synchronisation of
ASCII). -/
def hasPref (p s : List Char) : Bool :=
  decide (s.take p.length = p)

/-- Model of `strings.Trim(s, " ")`: removes leading and trailing space
characters (only spaces, not general whitespace). -/
def goTrimSpaces (l : List Char) : List Char :=
  ((l.dropWhile (fun c => decide (c = ' '))).reverse.dropWhile (fun c => decide (c = ' '))).reverse

/-- Processing of one response line by the loop body of the `Stats`
method, threading the record being assembled.  The `POOLS` branch
evaluates `s.Raw[6:]`, which in Go panics when the string is shorter
than six bytes — modelled as `none`; every other branch stores the full
raw line (or ignores it, for `END` and unrecognized lines). -/
def statsLine (st : Stats) (raw : String) : Option Stats :=
  if hasPref "POOLS".data raw.data then
    if raw.data.length < 6 then none
    else some { st with Pools := String.mk (goTrimSpaces (raw.data.drop 6)) }
  else if hasPref "STATE".data raw.data then some { st with State := raw }
  else if hasPref "THREADS".data raw.data then some { st with Threads := raw }
  else if hasPref "QUEUE".data raw.data then some { st with Queue := raw }
  else if hasPref "MEMSTATS".data raw.data then some { st with Memstats := raw }
  else if hasPref "END".data raw.data then some st
  else some st

/-- The drain loop of the `Stats` method over the raw texts of the
delivered records, starting from the zero-valued record; `none` when
some line panics. -/
def statsAgg (lines : List String) : Option Stats :=
  lines.foldlM statsLine {}

example : statsAgg ["POOLS"] = none := by decide

example : statsAgg ["POOLS: 1  ", "STATE: VALID"] =
    some { Pools := "1", State := "STATE: VALID" } := by decide

/-! ## Transport resolver (`newConnection`)

`newConnection` calls `net/url.Parse` and switches on the scheme.  The
model below reproduces the scheme-extraction step of the Go standard
library's `url.Parse` (function `getScheme`) together with its
control-character rejection; the decomposition of the remainder into
host and path is simplified (no userinfo, port or escape validation),
which is sound for the claims settled here since they depend only on
the error behaviour and on the scheme. -/

/-- ASCII letter test of Go's `getScheme` first character class. -/
def isSchemeAlpha (c : Char) : Bool :=
  ('a' ≤ c && c ≤ 'z') || ('A' ≤ c && c ≤ 'Z')

/-- Continuation characters of a URL scheme after the first letter. -/
def isSchemeCont (c : Char) : Bool :=
  isSchemeAlpha c || c.isDigit || decide (c = '+') || decide (c = '-') || decide (c = '.')

/-- Result of the scheme scan of `url.Parse`: no scheme (the whole input
is the remainder), a scheme with its remainder, or the error
`missing protocol scheme` raised when a colon appears first. -/
inductive SchemeScan where
  | noScheme
  | withScheme (s rest : List Char)
  | missingScheme
deriving Repr, DecidableEq

/-- Scan of Go's `getScheme`: letters always continue; digits and
`+ - .` continue only after the first position (at position zero the
whole input is taken as scheme-less); a colon terminates the scheme,
which must be non-empty; any other character means no scheme. -/
def getSchemeAux (acc : List Char) : List Char → SchemeScan
  | [] => SchemeScan.noScheme
  | c :: t =>
    if isSchemeAlpha c then getSchemeAux (acc ++ [c]) t
    else if isSchemeCont c then
      if acc = [] then SchemeScan.noScheme else getSchemeAux (acc ++ [c]) t
    else if c = ':' then
      if acc = [] then SchemeScan.missingScheme else SchemeScan.withScheme acc t
    else SchemeScan.noScheme

/-- Control-character test of `url.Parse`: any byte below 0x20 or equal
to 0x7f makes parsing fail. -/
def containsCtl (l : List Char) : Bool :=
  l.any (fun c => c.toNat < 32 || decide (c.toNat = 127))

/-- URL value as consumed by `newConnection`: the lower-cased scheme,
the host (used for the `tcp` branch) and the path (used for the
`unix` branch). -/
structure GoURL where
  scheme : String
  host : String
  path : String
deriving Repr, DecidableEq

/-- Split of the remainder after `scheme:` into host and path when it
carries a `//` authority, simplified from `url.Parse` (no userinfo,
port or escape validation). -/
def splitHostPath (rest : List Char) : String × String :=
  match rest with
  | '/' :: '/' :: t =>
    let h := t.takeWhile (fun c => decide (c ≠ '/'))
    (String.mk h, String.mk (t.drop h.length))
  | _ => ("", String.mk rest)

/-- Simplified model of Go's `net/url.Parse`: the control-character
rejection and the scheme extraction (including lower-casing of the
scheme and the `missing protocol scheme` error) follow the Go source;
everything after the scheme is decomposed without validation. -/
def urlParse (raw : String) : Except String GoURL :=
  if containsCtl raw.data then Except.error "net/url: invalid control character in URL"
  else
    match getSchemeAux [] raw.data with
    | SchemeScan.missingScheme => Except.error "missing protocol scheme"
    | SchemeScan.noScheme => Except.ok { scheme := "", host := "", path := String.mk raw.data }
    | SchemeScan.withScheme s rest =>
      let hp := splitHostPath rest
      Except.ok { scheme := String.mk (s.map Char.toLower), host := hp.1, path := hp.2 }

/-- Observable action of `newConnection`: which dial is attempted, or
the parse error returned before any dialing. -/
inductive DialAction where
  | tcpDial (host : String)
  | unixDial (path : String)
  | parseFailure (msg : String)
deriving Repr, DecidableEq

/-- The `newConnection` method of the Go source: a `url.Parse` failure
is returned at once (no dial); scheme `tcp` dials the URL host with the
TCP timeout, scheme `unix` dials the URL path, and any other scheme —
including the empty one — dials the entire address string as a
Unix-domain socket path. -/
def newConnection (address : String) : DialAction :=
  match urlParse address with
  | Except.error e => DialAction.parseFailure e
  | Except.ok u =>
    if u.scheme = "tcp" then DialAction.tcpDial u.host
    else if u.scheme = "unix" then DialAction.unixDial u.path
    else DialAction.unixDial address

example : newConnection "/tmp/clamd.socket" = DialAction.unixDial "/tmp/clamd.socket" := by decide

example : newConnection "tcp://127.0.0.1:3310" = DialAction.tcpDial "127.0.0.1:3310" := by decide

example : newConnection ":3310" = DialAction.parseFailure "missing protocol scheme" := by decide

/-! ## Parser lemmas -/

/-- Well-formedness of the optional signature submatches: when the group
participates, the hash is non-empty and the size text is a non-empty
digit run. -/
def sigProps (sig : Option (List Char × List Char)) : Prop :=
  ∀ h s, sig = some (h, s) → h ≠ [] ∧ s ≠ [] ∧ s.all Char.isDigit = true

lemma parseSig_props {l h s r : List Char} (hp : parseSig l = some (h, s, r)) :
    h ≠ [] ∧ s ≠ [] ∧ s.all Char.isDigit = true := by
  unfold parseSig at hp
  dsimp only at hp
  split at hp
  next t =>
    split at hp
    next => exact absurd hp (by simp)
    next h1 =>
      split at hp
      next t2 heq =>
        split at hp
        next => exact absurd hp (by simp)
        next h2 =>
          split at hp
          next r2 heq2 =>
            injection hp with hp'
            simp only [Prod.mk.injEq] at hp'
            obtain ⟨e1, e2, e3⟩ := hp'
            subst e1; subst e2
            refine ⟨h1, h2, ?_⟩
            rw [List.all_eq_true]
            intro a ha
            exact List.mem_takeWhile_imp ha
          next => exact absurd hp (by simp)
      next => exact absurd hp (by simp)
  next => exact absurd hp (by simp)

lemma matchTail_props {after : List Char} {sig : Option (List Char × List Char)}
    {st : List Char} (hm : matchTail after = some (sig, st)) :
    isStatusTok st = true ∧ sigProps sig := by
  unfold matchTail at hm
  split at hm
  next h s r heq =>
    split at hm
    next st2 =>
      split at hm
      next hstat =>
        injection hm with hm'
        simp only [Prod.mk.injEq] at hm'
        obtain ⟨e1, e2⟩ := hm'
        subst e1; subst e2
        refine ⟨hstat, ?_⟩
        intro h2 s2 hss
        injection hss with hss'
        simp only [Prod.mk.injEq] at hss'
        obtain ⟨f1, f2⟩ := hss'
        subst f1; subst f2
        exact parseSig_props heq
      next => exact absurd hm (by simp)
    next => exact absurd hm (by simp)
  next heq =>
    split at hm
    next st2 =>
      split at hm
      next hstat =>
        injection hm with hm'
        simp only [Prod.mk.injEq] at hm'
        obtain ⟨e1, e2⟩ := hm'
        subst e1; subst e2
        exact ⟨hstat, by intro h2 s2 hss; exact absurd hss (by simp)⟩
      next => exact absurd hm (by simp)
    next => exact absurd hm (by simp)

lemma descLoop_props {rest d : List Char} {sig : Option (List Char × List Char)}
    {st : List Char} :
    ∀ k, descLoop rest k = some (d, sig, st) → isStatusTok st = true ∧ sigProps sig
  | 0, hm => absurd hm (by simp [descLoop])
  | k + 1, hm => by
    unfold descLoop at hm
    split at hm
    next sig2 st2 heq =>
      injection hm with hm'
      simp only [Prod.mk.injEq] at hm'
      obtain ⟨e1, e2, e3⟩ := hm'
      subst e2; subst e3
      exact matchTail_props heq
    next => exact descLoop_props k hm

lemma matchRest_props {rest : List Char} {d : Option (List Char)}
    {sig : Option (List Char × List Char)} {st : List Char}
    (hm : matchRest rest = some (d, sig, st)) :
    isStatusTok st = true ∧ sigProps sig := by
  unfold matchRest at hm
  split at hm
  next d2 sig2 st2 heq =>
    injection hm with hm'
    simp only [Prod.mk.injEq] at hm'
    obtain ⟨e1, e2, e3⟩ := hm'
    subst e2; subst e3
    exact descLoop_props _ heq
  next =>
    split at hm
    next hstat =>
      injection hm with hm'
      simp only [Prod.mk.injEq] at hm'
      obtain ⟨e1, e2, e3⟩ := hm'
      subst e2; subst e3
      exact ⟨hstat, by intro h2 s2 hss; exact absurd hss (by simp)⟩
    next => exact absurd hm (by simp)

lemma matchLine_props {line : List Char} {m : RegexMatch}
    (hm : matchLine line = some m) :
    isStatusTok m.status = true ∧ sigProps m.sig := by
  unfold matchLine at hm
  dsimp only at hm
  split at hm
  next => exact absurd hm (by simp)
  next =>
    split at hm
    next rest =>
      split at hm
      next d sig st heq =>
        injection hm with hm'
        subst hm'
        exact matchRest_props heq
      next => exact absurd hm (by simp)
    next => exact absurd hm (by simp)

lemma goAtoi_digits {s : List Char} (h1 : s ≠ []) (h2 : s.all Char.isDigit = true)
    (h3 : digitsVal s ≤ 2 ^ 63 - 1) : goAtoi s = some (digitsVal s) := by
  unfold goAtoi
  have he : s.isEmpty = false := by
    cases s with
    | nil => exact absurd rfl h1
    | cons a t => rfl
  rw [he, h2]
  simp only [Bool.false_eq_true, if_false, Bool.true_and]
  rw [if_pos]
  exact decide_eq_true h3

lemma parseResult_of_match {line : String} {m : RegexMatch}
    (hm : matchLine line.data = some m) (hst : isStatusTok m.status = true) :
    parseResult line =
      { Raw := line
        Path := String.mk m.path
        Description := match m.desc with | some d => String.mk d | none => ""
        Hash := match m.sig with | some hs => String.mk hs.1 | none => ""
        Size := match m.sig with
                | some hs => match goAtoi hs.2 with | some v => v | none => 0
                | none => 0
        Status := String.mk m.status } := by
  unfold parseResult
  rw [hm]
  dsimp only
  rw [hst]
  exact if_pos rfl

/-! ## Claims C1-C4: the response parser -/

/-- C1 counterexample: the line `x: FOUND` is accepted by the response
grammar (its optional description and signature groups are absent) and
parses to a record with status `FOUND` whose `Hash` field is empty,
refuting the claim that status `FOUND` implies a non-empty signature
field. -/
theorem c1_counterexample :
    (parseResult "x: FOUND").Status = RES_FOUND ∧ (parseResult "x: FOUND").Hash = "" := by
  decide

/-- C1, amended: for every accepted line, the `Hash` field is non-empty
whenever the signature group participates in the match; status `FOUND`
alone does not force a non-empty `Hash`, since the signature group is
optional. -/
theorem c1_hash_nonempty_of_sig (line : String) (m : RegexMatch) (hs dg : List Char)
    (hm : matchLine line.data = some m) (hsig : m.sig = some (hs, dg)) :
    0 < (parseResult line).Hash.length := by
  obtain ⟨hst, hsp⟩ := matchLine_props hm
  rw [parseResult_of_match hm hst]
  dsimp only
  rw [hsig]
  dsimp only
  have hne := (hsp hs dg hsig).1
  show 0 < (String.mk hs).length
  have : (String.mk hs).length = hs.length := rfl
  rw [this]
  exact List.length_pos.mpr hne

/-- C1 witness: instantiation of the amended C1 theorem at a concrete
accepted line carrying a signature group. -/
theorem c1_witness : 0 < (parseResult "/tmp/file: Eicar(dead:12) FOUND").Hash.length :=
  c1_hash_nonempty_of_sig "/tmp/file: Eicar(dead:12) FOUND"
    ⟨"/tmp/file".data, some "Eicar".data, some ("dead".data, "12".data), "FOUND".data⟩
    "dead".data "12".data (by decide) rfl

/-- C2 counterexample: the line `f: d(h:1) OK` matches the grammar with
status token `OK` while its signature group participates, and the
parsed record carries hash `h` and size `1`, refuting the claim that
status `OK` or `ERROR` always comes with empty signature and zero
size. -/
theorem c2_counterexample :
    (parseResult "f: d(h:1) OK").Status = RES_OK ∧
    (parseResult "f: d(h:1) OK").Hash = "h" ∧
    (parseResult "f: d(h:1) OK").Size = 1 := by
  decide

/-- C2, amended: for every line matching with status token `OK` or
`ERROR` and with the signature group absent, `parseResult` returns a
record with that status, an empty `Hash` and size zero; when the
signature group participates (which the grammar permits with any
status token) the hash and size are taken from the group instead. -/
theorem c2_ok_error_no_sig (line : String) (m : RegexMatch)
    (hm : matchLine line.data = some m) (hsig : m.sig = none)
    (hst2 : m.status = "OK".data ∨ m.status = "ERROR".data) :
    (parseResult line).Status = String.mk m.status ∧
    (parseResult line).Hash = "" ∧ (parseResult line).Size = 0 := by
  have hst : isStatusTok m.status = true := by
    rcases hst2 with h | h <;> rw [h] <;> decide
  rw [parseResult_of_match hm hst]
  dsimp only
  rw [hsig]
  exact ⟨rfl, rfl, rfl⟩

/-- C2 witness: instantiation of the amended C2 theorem at the line
`/tmp/file: OK` of end-to-end scenario 1. -/
theorem c2_witness :
    (parseResult "/tmp/file: OK").Status = String.mk "OK".data ∧
    (parseResult "/tmp/file: OK").Hash = "" ∧ (parseResult "/tmp/file: OK").Size = 0 :=
  c2_ok_error_no_sig "/tmp/file: OK" ⟨"/tmp/file".data, none, none, "OK".data⟩
    (by decide) rfl (Or.inl rfl)

/-- C3: `parseResult` is total (it is a plain Lean function, defined on
every input line), and on every line rejected by the grammar it returns
the record with the raw field set to the line, the fixed diagnostic
description, status `PARSE ERROR`, and all other fields empty or
zero. -/
theorem c3_parse_error_record (line : String) (hm : matchLine line.data = none) :
    parseResult line =
      { Raw := line, Description := "Regex had no matches",
        Path := "", Hash := "", Size := 0, Status := RES_PARSE_ERROR } := by
  unfold parseResult
  rw [hm]

/-- C3 witness: instantiation of the C3 theorem at a concrete line the
grammar rejects. -/
theorem c3_witness :
    parseResult "this line has no grammar shape" =
      { Raw := "this line has no grammar shape", Description := "Regex had no matches",
        Path := "", Hash := "", Size := 0, Status := RES_PARSE_ERROR } :=
  c3_parse_error_record "this line has no grammar shape" (by decide)

/-- C4 counterexample: the line
`/tmp/file: Eicar-Test-Signature(abcd1234:68) OK` matches the grammar
with its signature group participating, yet the resulting status is
`OK`, not `FOUND`, refuting the claim that a participating signature
group forces status `FOUND`. -/
theorem c4_counterexample :
    (parseResult "/tmp/file: Eicar-Test-Signature(abcd1234:68) OK").Hash = "abcd1234" ∧
    (parseResult "/tmp/file: Eicar-Test-Signature(abcd1234:68) OK").Status = RES_OK ∧
    decide ((parseResult "/tmp/file: Eicar-Test-Signature(abcd1234:68) OK").Status
      = RES_FOUND) = false := by
  decide

/-- C4, amended: for every line matching with the signature group
present, `parseResult` returns the line's status token (which the
grammar allows to be any of `FOUND`, `ERROR`, `OK`, not only `FOUND`)
and, whenever the written integer fits in a signed 64-bit int, a size
equal to it; the concrete line of end-to-end scenario 2, whose status
token is `FOUND`, yields exactly the stated record. -/
theorem c4_sig_size_status :
    (∀ (line : String) (m : RegexMatch) (hs dg : List Char),
      matchLine line.data = some m → m.sig = some (hs, dg) →
      (parseResult line).Status = String.mk m.status ∧
      (digitsVal dg ≤ 2 ^ 63 - 1 → (parseResult line).Size = digitsVal dg)) ∧
    parseResult "/tmp/file: Eicar-Test-Signature(abcd1234:68) FOUND" =
      { Raw := "/tmp/file: Eicar-Test-Signature(abcd1234:68) FOUND",
        Description := "Eicar-Test-Signature", Path := "/tmp/file",
        Hash := "abcd1234", Size := 68, Status := RES_FOUND } := by
  constructor
  · intro line m hs dg hm hsig
    obtain ⟨hst, hsp⟩ := matchLine_props hm
    obtain ⟨hne, hne2, hdig⟩ := hsp hs dg hsig
    rw [parseResult_of_match hm hst]
    dsimp only
    rw [hsig]
    dsimp only
    refine ⟨rfl, ?_⟩
    intro hbound
    rw [goAtoi_digits hne2 hdig hbound]
  · decide

/-- C4 witness: instantiation of the general part of the C4 theorem at
a concrete line whose signature group participates with status token
`ERROR`. -/
theorem c4_witness :
    (parseResult "f: v(h9:7) ERROR").Status = String.mk "ERROR".data ∧
    (parseResult "f: v(h9:7) ERROR").Size = digitsVal "7".data :=
  ⟨(c4_sig_size_status.1 "f: v(h9:7) ERROR"
      ⟨"f".data, some "v".data, some ("h9".data, "7".data), "ERROR".data⟩
      "h9".data "7".data (by decide) rfl).1,
   (c4_sig_size_status.1 "f: v(h9:7) ERROR"
      ⟨"f".data, some "v".data, some ("h9".data, "7".data), "ERROR".data⟩
      "h9".data "7".data (by decide) rfl).2 (by decide)⟩

/-! ## Connection lemmas -/

lemma Conn.write_pending (c : Conn) (d : List Nat) :
    (c.write d).1.pending = c.pending.drop 1 := by
  obtain ⟨p, w⟩ := c
  cases p with
  | nil => rfl
  | cons b rest => cases b <;> rfl

lemma Conn.write_outcome (c : Conn) (d : List Nat) :
    (c.write d).2 = nextOutcome c.pending := by
  obtain ⟨p, w⟩ := c
  cases p with
  | nil => rfl
  | cons b rest => cases b <;> rfl

lemma Conn.write_nofault (c : Conn) (hp : c.pending = []) (d : List Nat) :
    c.write d = ({ pending := [], written := c.written ++ [d] }, none) := by
  obtain ⟨p, w⟩ := c
  simp only at hp
  subst hp
  rfl

lemma Conn.sendChunk_outcome (c : Conn) (d : List Nat) :
    (c.sendChunk d).2 = nextOutcome (c.pending.drop 1) := by
  obtain ⟨p, w⟩ := c
  match p with
  | [] => rfl
  | [b] => cases b <;> rfl
  | b1 :: b2 :: rest => cases b1 <;> cases b2 <;> rfl

lemma Conn.sendChunk_pending (c : Conn) (d : List Nat) :
    (c.sendChunk d).1.pending = c.pending.drop 2 := by
  obtain ⟨p, w⟩ := c
  match p with
  | [] => rfl
  | [b] => cases b <;> rfl
  | b1 :: b2 :: rest => cases b1 <;> cases b2 <;> rfl

lemma Conn.sendChunk_nofault (c : Conn) (hp : c.pending = []) (d : List Nat) :
    c.sendChunk d = ({ pending := [], written := c.written ++ [lenHeader d.length, d] }, none) := by
  obtain ⟨p, w⟩ := c
  simp only at hp
  subst hp
  simp [Conn.sendChunk, Conn.write]

lemma scanStreamLoopAux_nofault (fuel : Nat) :
    ∀ (c : Conn) (src : List Nat), src.length ≤ fuel → c.pending = [] →
      scanStreamLoopAux fuel c src =
        { pending := [],
          written := c.written ++ (chunksAux fuel src).flatMap fun ch => [lenHeader ch.length, ch] } := by
  induction fuel with
  | zero =>
    intro c src hle hp
    have hs : src = [] := by
      cases src with
      | nil => rfl
      | cons a t => simp at hle
    subst hs
    obtain ⟨p, w⟩ := c
    simp only at hp
    subst hp
    simp [scanStreamLoopAux, chunksAux]
  | succ f ih =>
    intro c src hle hp
    cases src with
    | nil =>
      obtain ⟨p, w⟩ := c
      simp only at hp
      subst hp
      simp [scanStreamLoopAux, chunksAux]
    | cons a t =>
      have hlen : ((a :: t).drop CHUNK_SIZE).length ≤ f := by
        simp only [List.length_drop, List.length_cons, CHUNK_SIZE]
        simp only [List.length_cons] at hle
        omega
      simp only [scanStreamLoopAux, chunksAux]
      rw [Conn.sendChunk_nofault c hp]
      rw [ih _ _ hlen rfl]
      simp [List.append_assoc]

lemma scanStreamLoopAux_pending (fuel : Nat) :
    ∀ (c : Conn) (src : List Nat), src.length ≤ fuel →
      (scanStreamLoopAux fuel c src).pending =
        c.pending.drop (2 * (chunksAux fuel src).length) := by
  induction fuel with
  | zero =>
    intro c src hle
    have hs : src = [] := by
      cases src with
      | nil => rfl
      | cons a t => simp at hle
    subst hs
    simp [scanStreamLoopAux, chunksAux]
  | succ f ih =>
    intro c src hle
    cases src with
    | nil => simp [scanStreamLoopAux, chunksAux]
    | cons a t =>
      have hlen : ((a :: t).drop CHUNK_SIZE).length ≤ f := by
        simp only [List.length_drop, List.length_cons, CHUNK_SIZE]
        simp only [List.length_cons] at hle
        omega
      simp only [scanStreamLoopAux, chunksAux]
      rw [ih _ _ hlen, Conn.sendChunk_pending, List.drop_drop]
      congr 1
      simp only [List.length_cons]
      omega

lemma chunksAux_pos (fuel : Nat) :
    ∀ (src : List Nat), ∀ ch ∈ chunksAux fuel src, 0 < ch.length := by
  induction fuel with
  | zero => intro src ch hch; simp [chunksAux] at hch
  | succ f ih =>
    intro src ch hch
    cases src with
    | nil => simp [chunksAux] at hch
    | cons a t =>
      simp only [chunksAux, List.mem_cons] at hch
      rcases hch with h | h
      · subst h
        simp only [List.length_take, List.length_cons, CHUNK_SIZE]
        omega
      · exact ih _ ch h

lemma scanStreamWrites_nofault (c : Conn) (hp : c.pending = []) (src : List Nat) :
    c.scanStreamWrites src =
      ({ pending := [],
         written := c.written ++ cmdBytes "INSTREAM" ::
           (((chunks1024 src).flatMap fun ch => [lenHeader ch.length, ch]) ++ [[0, 0, 0, 0]]) },
       none) := by
  unfold Conn.scanStreamWrites Conn.sendCommand Conn.sendEOF scanStreamLoop
  dsimp only
  rw [Conn.write_nofault c hp]
  rw [scanStreamLoopAux_nofault _ _ _ (Nat.le_refl _) rfl]
  rw [Conn.write_nofault _ rfl]
  unfold chunks1024
  simp [List.append_assoc]

lemma chunksAux_fuel (f1 : Nat) :
    ∀ (f2 : Nat) (src : List Nat), src.length ≤ f1 → src.length ≤ f2 →
      chunksAux f1 src = chunksAux f2 src := by
  induction f1 with
  | zero =>
    intro f2 src h1 h2
    have hs : src = [] := by
      cases src with
      | nil => rfl
      | cons a t => simp at h1
    subst hs
    cases f2 <;> rfl
  | succ f ih =>
    intro f2 src h1 h2
    cases src with
    | nil => cases f2 <;> rfl
    | cons a t =>
      cases f2 with
      | zero => simp at h2
      | succ f2 =>
        simp only [chunksAux]
        congr 1
        apply ih
        · simp only [List.length_drop, List.length_cons, CHUNK_SIZE]
          simp only [List.length_cons] at h1
          omega
        · simp only [List.length_drop, List.length_cons, CHUNK_SIZE]
          simp only [List.length_cons] at h2
          omega

lemma chunks1024_cons (src : List Nat) (h : src ≠ []) :
    chunks1024 src = src.take CHUNK_SIZE :: chunks1024 (src.drop CHUNK_SIZE) := by
  unfold chunks1024
  cases src with
  | nil => exact absurd rfl h
  | cons a t =>
    rw [List.length_cons]
    simp only [chunksAux]
    congr 1
    apply chunksAux_fuel
    · simp only [List.length_drop, List.length_cons, CHUNK_SIZE]
      omega
    · exact Nat.le_refl _

lemma chunks_replicate_2500 :
    chunks1024 (List.replicate 2500 (7 : Nat)) =
      [List.replicate 1024 7, List.replicate 1024 7, List.replicate 452 7] := by
  rw [chunks1024_cons _ (by simp only [ne_eq, List.replicate_eq_nil_iff]; norm_num),
    List.take_replicate, List.drop_replicate]
  norm_num [CHUNK_SIZE]
  rw [chunks1024_cons _ (by simp only [ne_eq, List.replicate_eq_nil_iff]; norm_num),
    List.take_replicate, List.drop_replicate]
  norm_num [CHUNK_SIZE]
  rw [chunks1024_cons _ (by simp only [ne_eq, List.replicate_eq_nil_iff]; norm_num),
    List.take_replicate, List.drop_replicate]
  norm_num [CHUNK_SIZE]
  rfl

/-! ## Claims C6-C8: write errors and stream framing -/

/-- C6 counterexample: on a connection whose next write fails, the
`sendChunk` method reports no error (`none` in the position of Go's
`err`) although the failed write was the 4-byte length header, which
never reaches the log — the header write's error is silently discarded
by the `conn.Write(b)` statement of the source, refuting the claim that
no write error is silently discarded. -/
theorem c6_counterexample :
    (Conn.sendChunk ⟨[false], []⟩ [1, 2, 3]).2 = none ∧
    (Conn.sendChunk ⟨[false], []⟩ [1, 2, 3]).1.written = [[1, 2, 3]] := by
  decide

/-- C6, amended: `sendChunk` surfaces exactly the outcome of its second
write (the payload), never that of the length-header write, and
`ScanStream` surfaces exactly the outcome of its final end-of-stream
write (one `INSTREAM` command write plus two writes per relayed chunk
precede it), while the errors of the command write, the header writes
and the chunk payload writes inside the relay loop are all discarded. -/
theorem c6_write_error_surfacing :
    (∀ (c : Conn) (data : List Nat), (c.sendChunk data).2 = nextOutcome (c.pending.drop 1)) ∧
    (∀ (c : Conn) (src : List Nat),
      (c.scanStreamWrites src).2 =
        nextOutcome (c.pending.drop (2 * (chunks1024 src).length + 1))) := by
  constructor
  · intro c data
    exact Conn.sendChunk_outcome c data
  · intro c src
    unfold Conn.scanStreamWrites Conn.sendCommand Conn.sendEOF scanStreamLoop
    dsimp only
    rw [Conn.write_outcome, scanStreamLoopAux_pending _ _ _ (Nat.le_refl _),
      Conn.write_pending, List.drop_drop]
    unfold chunks1024
    rw [Nat.add_comm 1 (2 * (chunksAux src.length src).length)]

/-- C7: the 4-byte header written by `sendChunk` for a payload of any
length up to 2^32-1 decodes, read as a big-endian unsigned integer,
back to that length, and `sendEOF` writes exactly the single frame of
four zero bytes with no payload. -/
theorem c7_frame_roundtrip :
    (∀ data : List Nat, data.length ≤ 2 ^ 32 - 1 →
      decodeHeader (lenHeader data.length) = data.length) ∧
    (∀ c : Conn, c.pending = [] →
      c.sendEOF = ({ pending := [], written := c.written ++ [[0, 0, 0, 0]] }, none)) := by
  constructor
  · intro data hle
    simp only [lenHeader, decodeHeader, Nat.shiftRight_eq_div_pow]
    omega
  · intro c hp
    obtain ⟨p, w⟩ := c
    simp only at hp
    subst hp
    rfl

/-- C7 witness: instantiation of the C7 theorem at a payload of 70000
bytes (all three non-trivial header bytes in play) and at a fresh
connection. -/
theorem c7_witness :
    decodeHeader (lenHeader (List.replicate 70000 (0 : Nat)).length) =
      (List.replicate 70000 (0 : Nat)).length ∧
    Conn.sendEOF ⟨[], []⟩ = ({ pending := [], written := [[0, 0, 0, 0]] }, none) :=
  ⟨c7_frame_roundtrip.1 (List.replicate 70000 0)
      (by simp only [List.length_replicate]; norm_num),
   c7_frame_roundtrip.2 ⟨[], []⟩ rfl⟩

/-- C8: relaying a 2500-byte source writes, after the framed `INSTREAM`
command, exactly three data frames of 1024, 1024 and 452 bytes in that
order followed by the four-zero-byte terminator frame; in general the
frames of any source are exactly its successive 1024-byte chunks, and
every such chunk is non-empty, so a zero-length data frame is never
written before the terminator. -/
theorem c8_stream_chunking :
    ((⟨[], []⟩ : Conn).scanStreamWrites (List.replicate 2500 7)).1.written =
      [cmdBytes "INSTREAM",
       lenHeader 1024, List.replicate 1024 7,
       lenHeader 1024, List.replicate 1024 7,
       lenHeader 452, List.replicate 452 7,
       [0, 0, 0, 0]] ∧
    (∀ src : List Nat, ((⟨[], []⟩ : Conn).scanStreamWrites src).1.written =
      cmdBytes "INSTREAM" ::
        (((chunks1024 src).flatMap fun ch => [lenHeader ch.length, ch]) ++ [[0, 0, 0, 0]])) ∧
    (∀ src : List Nat, ∀ ch ∈ chunks1024 src, 0 < ch.length) := by
  refine ⟨?_, ?_, ?_⟩
  · rw [scanStreamWrites_nofault ⟨[], []⟩ rfl]
    dsimp only
    rw [chunks_replicate_2500]
    simp only [List.flatMap_cons, List.flatMap_nil, List.length_replicate,
      List.append_nil, List.cons_append, List.nil_append]
  · intro src
    rw [scanStreamWrites_nofault ⟨[], []⟩ rfl]
    dsimp only
    exact List.nil_append _
  · intro src ch hch
    exact chunksAux_pos _ _ ch hch

/-- C8 witness: instantiation of the universally quantified parts of
the C8 theorem at a one-byte source, whose single chunk is that byte. -/
theorem c8_witness :
    ((⟨[], []⟩ : Conn).scanStreamWrites [9]).1.written =
      cmdBytes "INSTREAM" ::
        (((chunks1024 [9]).flatMap fun ch => [lenHeader ch.length, ch]) ++ [[0, 0, 0, 0]]) ∧
    0 < ([9] : List Nat).length :=
  ⟨c8_stream_chunking.2.1 [9], c8_stream_chunking.2.2 [9] [9] (by decide)⟩

/-! ## Claim C5: transport resolution -/

/-- C5 counterexample: the address `:3310` fails URL parsing (Go's
`url.Parse` reports `missing protocol scheme` for a leading colon), and
`newConnection` returns that error before any dialing, refuting the
claim that every address without a recognized scheme — including ones
on which URL parsing fails — is dialed as a Unix-domain socket path. -/
theorem c5_counterexample :
    newConnection ":3310" = DialAction.parseFailure "missing protocol scheme" ∧
    decide (newConnection ":3310" = DialAction.unixDial ":3310") = false := by
  decide

/-- C5, amended: for every address string the URL parser accepts with a
scheme that is neither `tcp` nor `unix` (including the empty scheme of
a plain path), `newConnection` dials the entire string as a Unix-domain
socket path; when URL parsing fails, `newConnection` returns the parse
error without dialing. -/
theorem c5_unix_fallback :
    (∀ (address : String) (u : GoURL), urlParse address = Except.ok u →
      u.scheme ≠ "tcp" → u.scheme ≠ "unix" →
      newConnection address = DialAction.unixDial address) ∧
    (∀ (address e : String), urlParse address = Except.error e →
      newConnection address = DialAction.parseFailure e) := by
  constructor
  · intro address u hu h1 h2
    unfold newConnection
    rw [hu]
    dsimp only
    rw [if_neg h1, if_neg h2]
  · intro address e he
    unfold newConnection
    rw [he]

/-- C5 witness: instantiation of the two parts of the amended C5
theorem at the default socket path of the example program and at an
address with a leading colon. -/
theorem c5_witness :
    newConnection "/tmp/clamd.socket" = DialAction.unixDial "/tmp/clamd.socket" ∧
    newConnection ":badaddr" = DialAction.parseFailure "missing protocol scheme" :=
  ⟨c5_unix_fallback.1 "/tmp/clamd.socket" ⟨"", "", "/tmp/clamd.socket"⟩ rfl
      (by decide) (by decide),
   c5_unix_fallback.2 ":badaddr" "missing protocol scheme" rfl⟩

/-! ## Claim C9: Ping and Reload on an empty response -/

/-- C9: when the result sequence closes without delivering any record
(the daemon closed the connection with no response line), both `Ping`
and `Reload` receive the nil zero value from the closed channel and the
subsequent `s.Raw` field access faults (a nil-pointer dereference,
modelled as the `nilDeref` outcome), instead of returning a call-level
error. -/
theorem c9_nil_deref_on_empty :
    pingAfterSend [] = CallOutcome.nilDeref ∧
    reloadAfterSend [] = CallOutcome.nilDeref := by
  decide

/-! ## Claim C10: the Stats POOLS slice -/

lemma hasPref_excl (p : List Char) {q s : List Char} (h : hasPref q s = true)
    (hne : decide (q.take (min p.length q.length) = p.take (min p.length q.length)) = false) :
    hasPref p s = false := by
  have hq : s.take q.length = q := of_decide_eq_true h
  rw [decide_eq_false_iff_not] at hne
  unfold hasPref
  apply decide_eq_false
  intro contra
  apply hne
  set n := min p.length q.length with hn
  have e1 : q.take n = s.take n := by
    rw [← hq, List.take_take]
    congr 1
    omega
  have e2 : p.take n = s.take n := by
    rw [← contra, List.take_take]
    congr 1
    omega
  rw [e1, e2]

/-- C10: in the drain loop of `Stats`, the line whose raw text is
exactly `POOLS` (five bytes) makes the slice expression `s.Raw[6:]`
fault out of range (modelled as `none`); for `POOLS`-prefixed lines of
length at least six, the `Pools` field is set to the text after the
first six characters with surrounding spaces trimmed, while
`STATE`-, `THREADS`-, `QUEUE`- and `MEMSTATS`-prefixed lines are stored
whole, keyword included, in their respective fields.  The ASCII
hypothesis on the `POOLS` conjunct scopes the rune-level model to the
inputs on which it coincides with Go's byte-level slicing. -/
theorem c10_stats_pools :
    statsAgg ["POOLS"] = none ∧
    (∀ (st : Stats) (raw : String), hasPref "POOLS".data raw.data = true →
      6 ≤ raw.data.length → (∀ ch ∈ raw.data, ch.toNat ≤ 127) →
      statsLine st raw = some { st with Pools := String.mk (goTrimSpaces (raw.data.drop 6)) }) ∧
    (∀ (st : Stats) (raw : String), hasPref "STATE".data raw.data = true →
      statsLine st raw = some { st with State := raw }) ∧
    (∀ (st : Stats) (raw : String), hasPref "THREADS".data raw.data = true →
      statsLine st raw = some { st with Threads := raw }) ∧
    (∀ (st : Stats) (raw : String), hasPref "QUEUE".data raw.data = true →
      statsLine st raw = some { st with Queue := raw }) ∧
    (∀ (st : Stats) (raw : String), hasPref "MEMSTATS".data raw.data = true →
      statsLine st raw = some { st with Memstats := raw }) := by
  refine ⟨by decide, ?_, ?_, ?_, ?_, ?_⟩
  · intro st raw h1 h2 _
    obtain ⟨rawl⟩ := raw
    have h6 : ¬ (String.mk rawl).length < 6 := by
      simp only [String.length] at h2 ⊢
      omega
    simp [statsLine, h1, h6]
    exact h2
  · intro st raw h1
    simp [statsLine, h1, hasPref_excl "POOLS".data h1 (by decide)]
  · intro st raw h1
    simp [statsLine, h1, hasPref_excl "POOLS".data h1 (by decide),
      hasPref_excl "STATE".data h1 (by decide)]
  · intro st raw h1
    simp [statsLine, h1, hasPref_excl "POOLS".data h1 (by decide),
      hasPref_excl "STATE".data h1 (by decide),
      hasPref_excl "THREADS".data h1 (by decide)]
  · intro st raw h1
    simp [statsLine, h1, hasPref_excl "POOLS".data h1 (by decide),
      hasPref_excl "STATE".data h1 (by decide),
      hasPref_excl "THREADS".data h1 (by decide),
      hasPref_excl "QUEUE".data h1 (by decide)]

/-- C10 witness: instantiation of every part of the C10 theorem at
concrete statistics lines. -/
theorem c10_witness :
    statsLine {} "POOLS: 2" = some { Pools := "2" } ∧
    statsLine {} "STATE: VALID" = some { State := "STATE: VALID" } ∧
    statsLine {} "THREADS: live 1" = some { Threads := "THREADS: live 1" } ∧
    statsLine {} "QUEUE: 0" = some { Queue := "QUEUE: 0" } ∧
    statsLine {} "MEMSTATS: heap 1M" = some { Memstats := "MEMSTATS: heap 1M" } :=
  ⟨c10_stats_pools.2.1 {} "POOLS: 2" (by decide) (by decide) (by decide),
   c10_stats_pools.2.2.1 {} "STATE: VALID" (by decide),
   c10_stats_pools.2.2.2.1 {} "THREADS: live 1" (by decide),
   c10_stats_pools.2.2.2.2.1 {} "QUEUE: 0" (by decide),
   c10_stats_pools.2.2.2.2.2 {} "MEMSTATS: heap 1M" (by decide)⟩

end Clamd
